import Mathlib

/-!
Shallow embedding of the core of the autoLeetcode repository:
the static validator and sandboxed runner (security/code_executor.py),
the repair loop (CodeFixer in main.py), the path utilities
(file_handler/path_utils.py) and the screenshot watcher
(ScreenshotMonitor in main.py), together with theorems settling the
frozen claims about them.
-/

namespace AutoLeetcode

/-! ## Static validator and sandboxed runner (security/code_executor.py) -/

/-- Deny-listed module names (CodeExecutor.FORBIDDEN_MODULES). -/
def FORBIDDEN_MODULES : List String :=
  ["os", "sys", "subprocess", "shutil", "pickle",
   "socket", "urllib", "requests", "http", "ftplib"]

/-- Deny-listed built-in function names (CodeExecutor.FORBIDDEN_FUNCTIONS). -/
def FORBIDDEN_FUNCTIONS : List String := ["eval", "exec", "compile", "__import__"]

/-- Deny-listed attribute names of calls (CodeExecutor.FORBIDDEN_FILE_ATTRS). -/
def FORBIDDEN_FILE_ATTRS : List String := ["open", "remove", "rmdir", "mkdir"]

/-- Shape of the function position of a Python call node, as far as
validate_code inspects it: a bare name (ast.Name), an attribute access
(ast.Attribute), or anything else. -/
inductive FuncRef where
  | name (id : String)
  | attr (a : String)
  | otherFunc
deriving DecidableEq, Repr

/-- One node of the walked abstract syntax tree, restricted to the shapes
validate_code distinguishes. An ast.Import statement carries a nonempty
list of dotted module names (first and rest); an ast.ImportFrom carries an
optional dotted module name (None for a relative "from . import x"). -/
inductive PyNode where
  | importNames (first : String) (rest : List String)
  | importFrom (module : Option String)
  | call (f : FuncRef)
  | otherNode
deriving DecidableEq, Repr

/-- Root of a dotted module name, name.split(".")[0]: the longest prefix
before the first dot. -/
def rootModule (dotted : String) : String :=
  String.mk (dotted.data.takeWhile (fun c => c != '.'))

/-- Error raised by validation: a deny-list violation (UnsafeCodeError, with
its message) or a syntax failure of ast.parse (CodeValidationError). -/
inductive VerdictErr where
  | forbiddenOp (msg : String)
  | badSyntax (msg : String)
deriving DecidableEq, Repr

/-- Check of a single walked node, mirroring the body of the walk loop of
CodeExecutor.validate_code. For ast.Import only node.names[0] is consulted;
the remaining names of the statement are never read. -/
def checkNode (node : PyNode) : Except VerdictErr Unit :=
  match node with
  | .importNames first _ =>
      if FORBIDDEN_MODULES.contains (rootModule first) then
        .error (.forbiddenOp ("禁止导入的模块: " ++ rootModule first))
      else .ok ()
  | .importFrom m =>
      match m with
      | some mod =>
          if FORBIDDEN_MODULES.contains (rootModule mod) then
            .error (.forbiddenOp ("禁止导入的模块: " ++ rootModule mod))
          else .ok ()
      | none => .ok ()
  | .call f =>
      match f with
      | .name id =>
          if FORBIDDEN_FUNCTIONS.contains id then
            .error (.forbiddenOp ("禁止的函数调用: " ++ id))
          else .ok ()
      | .attr a =>
          if FORBIDDEN_FILE_ATTRS.contains a then
            .error (.forbiddenOp ("禁止的文件操作: " ++ a))
          else .ok ()
      | .otherFunc => .ok ()
  | .otherNode => .ok ()

/-- Walk over all nodes in order, raising at the first offending node
(ast.walk iteration in validate_code). -/
def walkCheck (nodes : List PyNode) : Except VerdictErr Unit :=
  match nodes with
  | [] => .ok ()
  | n :: rest =>
      match checkNode n with
      | .error e => .error e
      | .ok _ => walkCheck rest

/-- CodeExecutor.validate_code: a script is its ast.parse outcome, either a
syntax-error message or the list of walked nodes. Parse failure raises
CodeValidationError with a 语法错误 message; otherwise the node walk runs. -/
def validate_code (parsed : Except String (List PyNode)) : Except VerdictErr Unit :=
  match parsed with
  | .error msg => .error (.badSyntax ("语法错误: " ++ msg))
  | .ok nodes => walkCheck nodes

/-- Outcome of subprocess.run on the validated script: normal completion
with a return code and captured streams, a timeout (subprocess.TimeoutExpired),
a missing python interpreter (FileNotFoundError), or any other exception. -/
inductive RunOutcome where
  | completed (returncode : Int) (out : String) (errText : String)
  | timedOut
  | interpreterMissing
  | runFailure (msg : String)
deriving DecidableEq, Repr

/-- Configuration state of a CodeExecutor: both constructor arguments are
stored (CodeExecutor.__init__). -/
structure CodeExecutor where
  timeout : Nat
  max_memory_mb : Nat
deriving DecidableEq, Repr

/-- Translation of the try/except around subprocess.run in
CodeExecutor.execute. On nonzero exit the diagnostic is
result.stderr or result.stdout (stdout when stderr is empty); on zero exit
the result is success with an empty diagnostic. -/
def runChild (timeout : Nat) (run : RunOutcome) : Bool × String :=
  match run with
  | .completed rc out errText =>
      if rc ≠ 0 then (false, if errText = "" then out else errText) else (true, "")
  | .timedOut => (false, "代码执行超时 (" ++ toString timeout ++ "s)")
  | .interpreterMissing =>
      (false, "错误: 未找到 python 命令，请确保 Python 已安装并添加到 PATH")
  | .runFailure m => (false, "代码执行错误: " ++ m)

/-- Observable outcome of CodeExecutor.execute: whether control reached the
subprocess.run call (so a child process could be spawned), and either the
returned (success, diagnostic) pair or the message of the re-raised
UnsafeCodeError. -/
structure ExecOutcome where
  spawnAttempted : Bool
  result : Except String (Bool × String)
deriving Repr

/-- CodeExecutor.execute: validation runs first and to completion; an
UnsafeCodeError is re-raised, any other validation failure is returned as
an ordinary failure pair, and only a fully validated script reaches
subprocess.run. -/
def execute (e : CodeExecutor) (parsed : Except String (List PyNode))
    (run : RunOutcome) : ExecOutcome :=
  match validate_code parsed with
  | .error (.forbiddenOp m) => { spawnAttempted := false, result := .error m }
  | .error (.badSyntax m) =>
      { spawnAttempted := false, result := .ok (false, "代码验证错误: " ++ m) }
  | .ok _ => { spawnAttempted := true, result := .ok (runChild e.timeout run) }

/-! ## Repair loop (CodeFixer.test_and_fix in main.py) -/

/-- MAX_FIX_ATTEMPTS in main.py. -/
def MAX_FIX_ATTEMPTS : Nat := 3

/-- Result of one run of the repair loop: the returned success flag and
final code, plus the trace of script texts that were written to the output
file and then executed, in order (one entry per execution attempt). -/
structure FixTrace where
  success : Bool
  finalCode : String
  tested : List String
deriving DecidableEq, Repr

/-- Body of the for-loop of CodeFixer.test_and_fix. fuel is the number of
remaining loop iterations (initially max_attempts), attempt the Python loop
index. execF models code_executor.execute on the current text at a given
attempt; fixF models llm_client.fix_code followed by
CodeParser.extract_code_from_markdown, none meaning that call raised (the
except branch, which breaks out of the loop). Each iteration first writes
the current text to the file and executes it, so the text is appended to
the tested trace. -/
def testAndFixGo (execF : Nat → String → Bool × String)
    (fixF : Nat → String → String → Option String) (maxAttempts : Nat) :
    Nat → Nat → String → FixTrace
  | 0, _, current => { success := false, finalCode := current, tested := [] }
  | fuel + 1, attempt, current =>
      let res := execF attempt current
      if res.1 then { success := true, finalCode := current, tested := [current] }
      else if attempt + 1 < maxAttempts then
        match fixF attempt current res.2 with
        | none => { success := false, finalCode := current, tested := [current] }
        | some next =>
            let t := testAndFixGo execF fixF maxAttempts fuel (attempt + 1) next
            { success := t.success, finalCode := t.finalCode, tested := current :: t.tested }
      else
        let t := testAndFixGo execF fixF maxAttempts fuel (attempt + 1) current
        { success := t.success, finalCode := t.finalCode, tested := current :: t.tested }

/-- CodeFixer.test_and_fix with the given max_attempts, starting at attempt
0 with the initial code. -/
def test_and_fix (execF : Nat → String → Bool × String)
    (fixF : Nat → String → String → Option String) (maxAttempts : Nat)
    (initial : String) : FixTrace :=
  testAndFixGo execF fixF maxAttempts maxAttempts 0 initial

/-! ## Path utilities (file_handler/path_utils.py) -/

/-- Whitespace character class of the regexes \s and of str.strip, taken
over its ASCII members. -/
def isSpaceChar (c : Char) : Bool :=
  c == ' ' || c == '\t' || c == '\n' || c == '\r' || c == '\x0b' || c == '\x0c'

/-- Word character class of the regex \w: ASCII alphanumerics, the
underscore, and (approximating the Unicode word characters that \w also
matches on str) every code point at or above 128. -/
def isWordChar (c : Char) : Bool :=
  c.isAlphanum || c == '_' || 128 ≤ c.toNat

/-- Characters surviving re.sub of the class complementary to word, space
and hyphen in sanitize_filename. -/
def keepChar (c : Char) : Bool :=
  isWordChar c || isSpaceChar c || c == '-'

/-- Python str.strip over a character list: whitespace removed from both
ends. -/
def stripChars (l : List Char) : List Char :=
  ((l.dropWhile isSpaceChar).reverse.dropWhile isSpaceChar).reverse

/-- Replacement of every maximal run of whitespace by a single underscore,
mirroring re.sub of one-or-more whitespace with an underscore. -/
def collapseSpaces : List Char → List Char
  | [] => []
  | [c] => if isSpaceChar c then ['_'] else [c]
  | c1 :: c2 :: cs =>
      if isSpaceChar c1 then
        (if isSpaceChar c2 then collapseSpaces (c2 :: cs)
         else '_' :: collapseSpaces (c2 :: cs))
      else c1 :: collapseSpaces (c2 :: cs)

/-- Character pipeline of PathUtils.sanitize_filename before the emptiness
test: drop characters outside word, space or hyphen, strip whitespace from
both ends, then collapse whitespace runs to underscores. -/
def cleanedChars (title : String) : List Char :=
  collapseSpaces (stripChars (title.data.filter keepChar))

/-- PathUtils.sanitize_filename: the cleaned character pipeline, with the
fixed default "untitled" when every character was stripped. -/
def sanitize_filename (title : String) : String :=
  let cleaned := cleanedChars title
  if cleaned.isEmpty then "untitled" else String.mk cleaned

/-- Splitting of a raw file name on the path separator, the component
decomposition pathlib performs when a string is joined onto a path. -/
def splitOnSlash : List Char → List (List Char)
  | [] => [[]]
  | c :: cs =>
      let rest := splitOnSlash cs
      if c == '/' then [] :: rest
      else
        match rest with
        | [] => [[c]]
        | r :: rs => (c :: r) :: rs

/-- One step of path resolution over components: empty and dot components
are dropped, a dot-dot component removes the last component, anything else
is appended. -/
def resolveStep (acc : List (List Char)) (comp : List Char) : List (List Char) :=
  if comp = [] ∨ comp = ['.'] then acc
  else if comp = ['.', '.'] then acc.dropLast
  else acc ++ [comp]

/-- Resolution of (output_dir / filename).resolve() over an already
resolved absolute output directory, given as its component list. -/
def resolveUnder (outputDir : List (List Char)) (filename : List Char) :
    List (List Char) :=
  (splitOnSlash filename).foldl resolveStep outputDir

/-- PathUtils.get_code_path over the component model: sanitize the title,
fall back to the screenshot stem if the sanitized title is empty, append
the .py extension, resolve under the output directory, and fail with
FileHandlingError (modelled as the error branch) unless the resolved path
stays inside the output directory (the relative_to check). -/
def get_code_path (outputDir : List (List Char)) (title : String)
    (screenshotStem : String) : Except String (List (List Char)) :=
  let st := sanitize_filename title
  let st2 := if st = "" then screenshotStem else st
  let filename := st2.data ++ (".py").data
  let resolved := resolveUnder outputDir filename
  if resolved.take outputDir.length = outputDir then .ok resolved
  else .error "生成的路径在输出目录之外"

/-! ## Screenshot watcher (ScreenshotMonitor in main.py) -/

/-- Mutable watcher state: the processing mutual-exclusion flag and the
timestamp of the last accepted event. Time is modelled in integral units. -/
structure WatchState where
  processing : Bool
  last_processed_time : Int
deriving DecidableEq, Repr

/-- One file-creation event as the handler sees it: directory flag, source
path, arrival time, and whether the synchronous Controller invocation
raises (process_screenshot escaping with an exception). -/
structure FsEvent where
  is_directory : Bool
  src_path : String
  time : Int
  controllerRaises : Bool
deriving DecidableEq, Repr

/-- Extension gate of on_created: the lower-cased path must end with one of
the allowed extensions. -/
def extAllowed (allowed : List String) (path : String) : Bool :=
  allowed.any (fun ext => path.toLower.endsWith ext)

/-- Observable actions of one run of the handler, in order. -/
inductive WatchAction where
  | dropEvent
  | setProcessing (b : Bool)
  | invokeController (path : String)
deriving DecidableEq, Repr

/-- ScreenshotMonitor.on_created: directory and extension gates, then the
debounce gate (cooldown not yet elapsed, or a job already processing),
then the file-size stability wait (which only sleeps and reads sizes and
never changes acceptance), then processing is set, the accept time
recorded, the Controller invoked synchronously, and processing cleared in
a finally block on every exit path, whether or not the Controller raised. -/
def on_created (cooldown : Int) (allowed : List String) (st : WatchState)
    (ev : FsEvent) : WatchState × List WatchAction :=
  if ev.is_directory then (st, [.dropEvent])
  else if ¬ extAllowed allowed ev.src_path then (st, [.dropEvent])
  else if ev.time - st.last_processed_time < cooldown ∨ st.processing then
    (st, [.dropEvent])
  else
    ({ processing := false, last_processed_time := ev.time },
     [.setProcessing true, .invokeController ev.src_path, .setProcessing false])

/-- Sequential delivery of a list of events to the handler, as the single
watchdog dispatch thread does, threading the watcher state through. -/
def runEvents (cooldown : Int) (allowed : List String) (st : WatchState)
    (evs : List FsEvent) : WatchState :=
  evs.foldl (fun s ev => (on_created cooldown allowed s ev).1) st

/-! ## Lemmas about the repair loop -/

theorem testAndFixGo_length (execF : Nat → String → Bool × String)
    (fixF : Nat → String → String → Option String) (m : Nat) :
    ∀ (fuel attempt : Nat) (cur : String),
      (testAndFixGo execF fixF m fuel attempt cur).tested.length ≤ fuel := by
  intro fuel
  induction fuel with
  | zero => intro attempt cur; simp [testAndFixGo]
  | succ n ih =>
      intro attempt cur
      simp only [testAndFixGo]
      split
      · simp
      · split
        · cases hfix : fixF attempt cur (execF attempt cur).2 with
          | none => simp
          | some next =>
              simpa using ih (attempt + 1) next
        · simpa using ih (attempt + 1) cur

theorem testAndFixGo_getLast (execF : Nat → String → Bool × String)
    (fixF : Nat → String → String → Option String) (m : Nat) :
    ∀ (fuel attempt : Nat) (cur : String), attempt + fuel = m → fuel ≠ 0 →
      (testAndFixGo execF fixF m fuel attempt cur).tested.getLast? =
        some (testAndFixGo execF fixF m fuel attempt cur).finalCode := by
  intro fuel
  induction fuel with
  | zero => intro attempt cur _ hne; exact absurd rfl hne
  | succ n ih =>
      intro attempt cur hm _
      simp only [testAndFixGo]
      split
      · simp
      · rename_i hlt
        split
        · rename_i hcase
          cases hfix : fixF attempt cur (execF attempt cur).2 with
          | none => simp
          | some next =>
              have hn : n ≠ 0 := by omega
              have hm2 : (attempt + 1) + n = m := by omega
              have hlast := ih (attempt + 1) next hm2 hn
              cases htl : (testAndFixGo execF fixF m n (attempt + 1) next).tested with
              | nil => rw [htl] at hlast; simp at hlast
              | cons x xs =>
                  rw [htl] at hlast
                  simpa [htl] using hlast
        · rename_i hcase
          have hn : n = 0 := by omega
          subst hn
          simp [testAndFixGo]

/-! ## Claim theorems: repair loop -/

/-- C1: for every initial script and every behavior of the executor and of
the repair capability, the repair loop with max_attempts = 3 performs at
most MAX_FIX_ATTEMPTS executions (one per entry of the tested trace, each
preceded by the write of that text to disk), and the script text it
returns, which the Controller then persists, is exactly the text of the
last script it tested, including when that last test failed. -/
theorem C1_loop_bound_and_last_tested
    (execF : Nat → String → Bool × String)
    (fixF : Nat → String → String → Option String) (initial : String) :
    (test_and_fix execF fixF MAX_FIX_ATTEMPTS initial).tested.length ≤ MAX_FIX_ATTEMPTS ∧
    (test_and_fix execF fixF MAX_FIX_ATTEMPTS initial).tested.getLast? =
      some (test_and_fix execF fixF MAX_FIX_ATTEMPTS initial).finalCode := by
  constructor
  · exact testAndFixGo_length execF fixF MAX_FIX_ATTEMPTS MAX_FIX_ATTEMPTS 0 initial
  · exact testAndFixGo_getLast execF fixF MAX_FIX_ATTEMPTS MAX_FIX_ATTEMPTS 0 initial rfl
      (by simp [MAX_FIX_ATTEMPTS])

/-- C8: at any iteration of the repair loop where the execution of the
current text fails and the repair invocation raises (the except branch of
test_and_fix), the loop executes the current text exactly once more (the
test that just failed), keeps it unmodified, performs no further execution
attempts, and returns immediately with a failure flag and that text,
forgoing the remaining attempt budget. -/
theorem C8_repair_exception_shortcut
    (execF : Nat → String → Bool × String)
    (fixF : Nat → String → String → Option String)
    (m fuel attempt : Nat) (current errMsg : String)
    (hexec : execF attempt current = (false, errMsg))
    (hbudget : attempt + 1 < m)
    (hfix : fixF attempt current errMsg = none) :
    testAndFixGo execF fixF m (fuel + 1) attempt current =
      { success := false, finalCode := current, tested := [current] } := by
  simp [testAndFixGo, hexec, hbudget, hfix]

/-- Witness for C8 at a concrete executor, repair capability and script. -/
theorem C8_repair_exception_shortcut_witness :
    testAndFixGo (fun _ _ => (false, "err")) (fun _ _ _ => none) 3 2 0 "abc" =
      { success := false, finalCode := "abc", tested := ["abc"] } :=
  C8_repair_exception_shortcut (fun _ _ => (false, "err")) (fun _ _ _ => none)
    3 1 0 "abc" "err" rfl (by decide) rfl

/-! ## Claim theorems: static validator and sandboxed runner -/

/-- C2: evaluation of the code at the failing input "import json, os".
The script parses and imports the deny-listed module os, yet validate_code
accepts it (only node.names[0], here json, is checked) and control reaches
subprocess.run, so a child process is spawned and the run succeeds; no
UnsafeCodeError is raised. This contradicts the claimed rejection of every
script containing a deny-listed import. -/
theorem C2_deny_list_first_name_gap :
    FORBIDDEN_MODULES.contains "os" = true ∧
    validate_code (.ok [.importNames "json" ["os"]]) = .ok () ∧
    (execute ⟨10, 100⟩ (.ok [.importNames "json" ["os"]])
        (.completed 0 "" "")).spawnAttempted = true ∧
    (execute ⟨10, 100⟩ (.ok [.importNames "json" ["os"]])
        (.completed 0 "" "")).result = .ok (true, "") :=
  ⟨by decide, rfl, rfl, rfl⟩

/-- C3: for every validated script, on exit code 0 within the timeout the
runner returns success with an empty diagnostic; on nonzero exit it returns
failure with the captured stderr, or stdout when stderr is empty; on
timeout it returns failure with the timeout diagnostic. -/
theorem C3_runner_result_cases (e : CodeExecutor)
    (parsed : Except String (List PyNode)) (run : RunOutcome)
    (hv : validate_code parsed = .ok ()) :
    (∀ out errS, run = .completed 0 out errS →
        (execute e parsed run).result = .ok (true, "")) ∧
    (∀ rc out errS, rc ≠ 0 → run = .completed rc out errS →
        (execute e parsed run).result =
          .ok (false, if errS = "" then out else errS)) ∧
    (run = .timedOut →
        (execute e parsed run).result =
          .ok (false, "代码执行超时 (" ++ toString e.timeout ++ "s)")) := by
  refine ⟨?_, ?_, ?_⟩
  · intro out errS hrun
    subst hrun
    simp [execute, hv, runChild]
  · intro rc out errS hrc hrun
    subst hrun
    simp [execute, hv, runChild, hrc]
  · intro hrun
    subst hrun
    simp [execute, hv, runChild]

/-- Witness for C3 at a concrete executor, script and run outcome. -/
theorem C3_runner_result_cases_witness :
    (execute ⟨10, 100⟩ (.ok []) (.completed 0 "out" "")).result = .ok (true, "") :=
  (C3_runner_result_cases ⟨10, 100⟩ (.ok []) (.completed 0 "out" "") rfl).1 "out" "" rfl

/-- C4 counterexample: when the python interpreter cannot be located
(FileNotFoundError from subprocess.run), execute returns an ordinary
failure pair rather than raising or otherwise distinguishing a fatal
configuration error, and the repair loop treats that result like any other
failed attempt: with the interpreter missing throughout and the repair
capability answering, all three attempt slots are consumed, so the
condition is retried. -/
theorem C4_missing_interpreter_counterexample :
    (execute ⟨10, 100⟩ (.ok []) .interpreterMissing).result =
      .ok (false, "错误: 未找到 python 命令，请确保 Python 已安装并添加到 PATH") ∧
    (test_and_fix (fun _ _ => runChild 10 .interpreterMissing)
        (fun _ c _ => some c) 3 "x").tested.length = 3 :=
  ⟨rfl, rfl⟩

/-- C4 amended: a missing interpreter is reported by execute as an ordinary
failed execution result carrying the fixed diagnostic about the missing
python command, after a spawn was attempted; the repair loop does not
distinguish it from a script defect and keeps retrying until its attempt
budget is exhausted. -/
theorem C4_missing_interpreter_is_retried (e : CodeExecutor)
    (parsed : Except String (List PyNode)) (initial : String)
    (hv : validate_code parsed = .ok ()) :
    (execute e parsed .interpreterMissing).spawnAttempted = true ∧
    (execute e parsed .interpreterMissing).result =
      .ok (false, "错误: 未找到 python 命令，请确保 Python 已安装并添加到 PATH") ∧
    (test_and_fix (fun _ _ => runChild e.timeout .interpreterMissing)
        (fun _ c _ => some c) MAX_FIX_ATTEMPTS initial).tested.length =
      MAX_FIX_ATTEMPTS ∧
    (test_and_fix (fun _ _ => runChild e.timeout .interpreterMissing)
        (fun _ c _ => some c) MAX_FIX_ATTEMPTS initial).success = false := by
  refine ⟨?_, ?_, ?_, ?_⟩ <;>
    simp [execute, hv, runChild, test_and_fix, testAndFixGo, MAX_FIX_ATTEMPTS]

/-- Witness for the amended C4 at a concrete executor and script. -/
theorem C4_missing_interpreter_is_retried_witness :
    (test_and_fix (fun _ _ => runChild 10 .interpreterMissing)
        (fun _ c _ => some c) MAX_FIX_ATTEMPTS "x").tested.length =
      MAX_FIX_ATTEMPTS :=
  (C4_missing_interpreter_is_retried ⟨10, 100⟩ (.ok []) "x" rfl).2.2.1

/-- C9: for an import statement listing several modules, validation checks
only the first listed name: the check of an ast.Import node is unchanged
under any replacement of the names after the first, and the concrete script
"import json, os" (deny-listed os second) is accepted, after which control
reaches subprocess.run and a child process is spawned. -/
theorem C9_import_checks_first_name_only :
    (∀ (first : String) (rest rest' : List String),
        checkNode (.importNames first rest) = checkNode (.importNames first rest')) ∧
    FORBIDDEN_MODULES.contains "os" = true ∧
    validate_code (.ok [.importNames "json" ["os"]]) = .ok () ∧
    (execute ⟨10, 100⟩ (.ok [.importNames "json" ["os"]])
        (.completed 0 "ok" "")).spawnAttempted = true :=
  ⟨fun _ _ _ => rfl, by decide, rfl, rfl⟩

/-- C10: the result of execute is independent of the configured memory
ceiling: two executors that agree on the timeout produce identical outcomes
on every script and run behavior, because max_memory_mb is stored at
construction but never read during execution. -/
theorem C10_memory_ceiling_irrelevant (e1 e2 : CodeExecutor)
    (parsed : Except String (List PyNode)) (run : RunOutcome)
    (h : e1.timeout = e2.timeout) :
    execute e1 parsed run = execute e2 parsed run := by
  cases e1 with
  | mk t1 m1 =>
      cases e2 with
      | mk t2 m2 =>
          simp only at h
          subst h
          rfl

/-- Witness for C10: executors differing only in the memory ceiling. -/
theorem C10_memory_ceiling_irrelevant_witness :
    execute ⟨10, 100⟩ (.ok []) .timedOut = execute ⟨10, 500⟩ (.ok []) .timedOut :=
  C10_memory_ceiling_irrelevant ⟨10, 100⟩ ⟨10, 500⟩ (.ok []) .timedOut rfl

/-! ## Lemmas about sanitization and paths -/

theorem space_not_word (c : Char) (h : isSpaceChar c = true) : isWordChar c = false := by
  simp only [isSpaceChar, Bool.or_eq_true, beq_iff_eq] at h
  rcases h with ((((rfl | rfl) | rfl) | rfl) | rfl) | rfl <;> decide

theorem dropWhile_all_false (p : Char → Bool) (l : List Char)
    (h : ∀ c ∈ l, p c = false) : l.dropWhile p = l := by
  cases l with
  | nil => rfl
  | cons a as => simp [List.dropWhile_cons, h a (List.mem_cons_self a as)]

theorem mem_dropWhile (p : Char → Bool) :
    ∀ (l : List Char) (c : Char), c ∈ l.dropWhile p → c ∈ l := by
  intro l
  induction l with
  | nil => intro c h; simp [List.dropWhile] at h
  | cons a as ih =>
      intro c h
      rw [List.dropWhile_cons] at h
      split at h
      · exact List.mem_cons_of_mem a (ih c h)
      · exact h

theorem stripChars_all (l : List Char) (h : ∀ c ∈ l, isSpaceChar c = false) :
    stripChars l = l := by
  unfold stripChars
  rw [dropWhile_all_false isSpaceChar l h,
      dropWhile_all_false isSpaceChar l.reverse
        (fun c hc => h c (List.mem_reverse.mp hc)),
      List.reverse_reverse]

theorem mem_stripChars (l : List Char) (c : Char) (h : c ∈ stripChars l) : c ∈ l := by
  unfold stripChars at h
  have h1 := mem_dropWhile isSpaceChar _ c (List.mem_reverse.mp h)
  exact mem_dropWhile isSpaceChar l c (List.mem_reverse.mp h1)

theorem mem_collapseSpaces :
    ∀ (l : List Char) (c : Char), c ∈ collapseSpaces l →
      c = '_' ∨ (c ∈ l ∧ isSpaceChar c = false) := by
  intro l
  induction l with
  | nil => intro c h; simp [collapseSpaces] at h
  | cons a tl ih =>
      intro c h
      cases tl with
      | nil =>
          simp only [collapseSpaces] at h
          by_cases ha : isSpaceChar a = true
          · rw [if_pos ha] at h
            simp at h
            exact Or.inl h
          · rw [if_neg ha] at h
            simp at h
            subst h
            exact Or.inr ⟨List.mem_cons_self _ _, by simpa using ha⟩
      | cons b bs =>
          simp only [collapseSpaces] at h
          by_cases ha : isSpaceChar a = true
          · rw [if_pos ha] at h
            by_cases hb : isSpaceChar b = true
            · rw [if_pos hb] at h
              rcases ih c h with h1 | ⟨hm, hs⟩
              · exact Or.inl h1
              · exact Or.inr ⟨List.mem_cons_of_mem a hm, hs⟩
            · rw [if_neg hb] at h
              rcases List.mem_cons.mp h with rfl | h2
              · exact Or.inl rfl
              · rcases ih c h2 with h1 | ⟨hm, hs⟩
                · exact Or.inl h1
                · exact Or.inr ⟨List.mem_cons_of_mem a hm, hs⟩
          · rw [if_neg ha] at h
            rcases List.mem_cons.mp h with rfl | h2
            · exact Or.inr ⟨List.mem_cons_self c (b :: bs), by simpa using ha⟩
            · rcases ih c h2 with h1 | ⟨hm, hs⟩
              · exact Or.inl h1
              · exact Or.inr ⟨List.mem_cons_of_mem a hm, hs⟩

theorem collapseSpaces_no_space :
    ∀ l : List Char, (∀ c ∈ l, isSpaceChar c = false) → collapseSpaces l = l := by
  intro l
  induction l with
  | nil => intro; rfl
  | cons a tl ih =>
      intro h
      cases tl with
      | nil =>
          simp only [collapseSpaces]
          rw [if_neg (by simp [h a (List.mem_cons_self a [])])]
      | cons b bs =>
          simp only [collapseSpaces]
          rw [if_neg (by simp [h a (List.mem_cons_self a (b :: bs))])]
          rw [ih (fun c hc => h c (List.mem_cons_of_mem a hc))]

theorem cleanedChars_flags (t : String) (c : Char) (h : c ∈ cleanedChars t) :
    keepChar c = true ∧ isSpaceChar c = false := by
  unfold cleanedChars at h
  rcases mem_collapseSpaces _ c h with rfl | ⟨hm, hs⟩
  · exact ⟨by decide, by decide⟩
  · have hm2 := mem_stripChars _ c hm
    exact ⟨List.of_mem_filter hm2, hs⟩

theorem sanitize_filename_ne_empty (t : String) : sanitize_filename t ≠ "" := by
  unfold sanitize_filename
  by_cases h : (cleanedChars t).isEmpty
  · rw [if_pos h]; decide
  · rw [if_neg h]
    intro habs
    have : (cleanedChars t) = [] := by
      have := congrArg String.data habs
      simpa using this
    simp [this] at h

theorem sanitize_filename_idem (t : String) :
    sanitize_filename (sanitize_filename t) = sanitize_filename t := by
  by_cases h : (cleanedChars t).isEmpty
  · have h1 : sanitize_filename t = "untitled" := by
      unfold sanitize_filename; rw [if_pos h]
    rw [h1]
    rfl
  · have h1 : sanitize_filename t = String.mk (cleanedChars t) := by
      unfold sanitize_filename; rw [if_neg h]
    have hflags := cleanedChars_flags t
    have hfilter : (cleanedChars t).filter keepChar = cleanedChars t :=
      List.filter_eq_self.mpr (fun c hc => (hflags c hc).1)
    have hstrip : stripChars (cleanedChars t) = cleanedChars t :=
      stripChars_all _ (fun c hc => (hflags c hc).2)
    have hcoll : collapseSpaces (cleanedChars t) = cleanedChars t :=
      collapseSpaces_no_space _ (fun c hc => (hflags c hc).2)
    have hclean2 : cleanedChars (String.mk (cleanedChars t)) = cleanedChars t := by
      have hstep : cleanedChars (String.mk (cleanedChars t)) =
          collapseSpaces (stripChars ((cleanedChars t).filter keepChar)) := rfl
      rw [hstep, hfilter, hstrip, hcoll]
    rw [h1]
    show sanitize_filename (String.mk (cleanedChars t)) = String.mk (cleanedChars t)
    simp only [sanitize_filename]
    rw [hclean2, if_neg h]

theorem sanitize_filename_no_slash (t : String) (c : Char)
    (h : c ∈ (sanitize_filename t).data) : c ≠ '/' := by
  unfold sanitize_filename at h
  by_cases he : (cleanedChars t).isEmpty
  · rw [if_pos he] at h
    have hall : ∀ x ∈ ("untitled").data, x ≠ '/' := by decide
    exact hall c h
  · rw [if_neg he] at h
    intro habs
    subst habs
    have := (cleanedChars_flags t '/' h).1
    simp [keepChar, isWordChar, isSpaceChar] at this

theorem splitOnSlash_no_slash :
    ∀ l : List Char, (∀ c ∈ l, c ≠ '/') → splitOnSlash l = [l] := by
  intro l
  induction l with
  | nil => intro; rfl
  | cons a as ih =>
      intro h
      simp only [splitOnSlash]
      rw [ih (fun c hc => h c (List.mem_cons_of_mem a hc))]
      have ha : (a == '/') = false := by
        simpa using h a (List.mem_cons_self a as)
      simp [ha]

theorem get_code_path_eq (outputDir : List (List Char)) (t stem : String) :
    get_code_path outputDir t stem =
      .ok (outputDir ++ [(sanitize_filename t).data ++ (".py").data]) := by
  have hne : ¬ sanitize_filename t = "" := sanitize_filename_ne_empty t
  have hslash : ∀ c ∈ (sanitize_filename t).data ++ (".py").data, c ≠ '/' := by
    intro c hc
    rcases List.mem_append.mp hc with h1 | h1
    · exact sanitize_filename_no_slash t c h1
    · have hall : ∀ x ∈ (".py").data, x ≠ '/' := by decide
      exact hall c h1
  have hlen : ((sanitize_filename t).data ++ (".py").data).length ≥ 3 := by
    simp
  have hresolve :
      resolveUnder outputDir ((sanitize_filename t).data ++ (".py").data) =
        outputDir ++ [(sanitize_filename t).data ++ (".py").data] := by
    unfold resolveUnder
    rw [splitOnSlash_no_slash _ hslash]
    simp only [List.foldl]
    unfold resolveStep
    rw [if_neg, if_neg]
    · intro habs
      rw [habs] at hlen
      simp at hlen
    · rintro (habs | habs) <;> rw [habs] at hlen <;> simp at hlen
  simp only [get_code_path]
  rw [if_neg hne]
  rw [hresolve]
  rw [if_pos (List.take_left outputDir _)]

/-! ## Claim theorems: path utilities -/

/-- C5: title sanitization is idempotent, and for every title the path
that get_code_path computes resolves inside the configured output directory
(the function even always succeeds, never taking its FileHandlingError
branch), so no title can produce a path outside that directory. -/
theorem C5_sanitize_idempotent_path_contained (title stem : String)
    (outputDir : List (List Char)) :
    sanitize_filename (sanitize_filename title) = sanitize_filename title ∧
    ∃ p, get_code_path outputDir title stem = .ok p ∧
      p.take outputDir.length = outputDir := by
  refine ⟨sanitize_filename_idem title, ⟨_, get_code_path_eq outputDir title stem, ?_⟩⟩
  exact List.take_left outputDir _

/-- C6 counterexample: for the title "!!!" every character is stripped,
yet the computed stem is the fixed default "untitled", not the input
file's stem two_sum: the output file is untitled.py, not two_sum.py. -/
theorem C6_stem_fallback_counterexample :
    cleanedChars "!!!" = [] ∧
    sanitize_filename "!!!" = "untitled" ∧
    get_code_path [['o', 'u', 't']] "!!!" "two_sum" =
      .ok [['o', 'u', 't'], ("untitled.py").data] ∧
    ("untitled.py").data ≠ ("two_sum.py").data :=
  ⟨rfl, rfl, rfl, by decide⟩

/-- C6 amended: when sanitizing a title strips every character,
sanitize_filename itself substitutes the fixed default stem untitled, and
get_code_path uses untitled.py as the file name; the fallback to the input
file's stem inside get_code_path is unreachable, because sanitize_filename
never returns an empty string. -/
theorem C6_untitled_default_stem (title stem : String)
    (outputDir : List (List Char)) :
    sanitize_filename title ≠ "" ∧
    (cleanedChars title = [] →
      sanitize_filename title = "untitled" ∧
      get_code_path outputDir title stem =
        .ok (outputDir ++ [("untitled.py").data])) := by
  refine ⟨sanitize_filename_ne_empty title, fun h => ⟨?_, ?_⟩⟩
  · unfold sanitize_filename
    rw [h]
    rfl
  · rw [get_code_path_eq outputDir title stem]
    have h1 : sanitize_filename title = "untitled" := by
      unfold sanitize_filename
      rw [h]
      rfl
    rw [h1]
    rfl

/-- Witness for the amended C6 at the concrete all-stripped title "!!!". -/
theorem C6_untitled_default_stem_witness :
    sanitize_filename "!!!" = "untitled" ∧
    get_code_path [] "!!!" "two_sum" = .ok [("untitled.py").data] :=
  ⟨((C6_untitled_default_stem "!!!" "two_sum" []).2 rfl).1,
   ((C6_untitled_default_stem "!!!" "two_sum" []).2 rfl).2⟩

/-! ## Lemmas about the watcher -/

theorem on_created_keeps_clear (cooldown : Int) (allowed : List String)
    (st : WatchState) (ev : FsEvent) (h : st.processing = false) :
    (on_created cooldown allowed st ev).1.processing = false := by
  unfold on_created
  split
  · exact h
  · split
    · exact h
    · split
      · exact h
      · rfl

theorem runEvents_keeps_clear (cooldown : Int) (allowed : List String) :
    ∀ (evs : List FsEvent) (st : WatchState), st.processing = false →
      (runEvents cooldown allowed st evs).processing = false := by
  intro evs
  induction evs with
  | nil => intro st h; exact h
  | cons ev rest ih =>
      intro st h
      exact ih _ (on_created_keeps_clear cooldown allowed st ev h)

/-! ## Claim theorem: watcher -/

/-- C7: the watcher's processing flag enforces mutual exclusion. Every
event arriving while processing is set, or within the cooldown period of
the last accepted event, is dropped without invoking the Controller and
without touching the state; every handler run either drops the event or
produces exactly the action sequence set-processing-true, invoke the
Controller, set-processing-false — the flag is raised before the
invocation and cleared afterwards on every exit path, whether or not the
Controller raised — leaving the state with processing cleared and the
accept time recorded; and across any sequence of events delivered by the
single dispatch thread the flag is clear again after each handler returns,
so at most one artifact is ever being processed. -/
theorem C7_processing_mutual_exclusion (cooldown : Int) (allowed : List String)
    (st : WatchState) (ev : FsEvent) :
    ((st.processing = true ∨ ev.time - st.last_processed_time < cooldown) →
      on_created cooldown allowed st ev = (st, [WatchAction.dropEvent])) ∧
    ((on_created cooldown allowed st ev).2 = [WatchAction.dropEvent] ∧
        (on_created cooldown allowed st ev).1 = st ∨
      (on_created cooldown allowed st ev).2 =
        [WatchAction.setProcessing true, WatchAction.invokeController ev.src_path,
         WatchAction.setProcessing false] ∧
        (on_created cooldown allowed st ev).1 =
          { processing := false, last_processed_time := ev.time }) ∧
    (∀ evs : List FsEvent, st.processing = false →
      (runEvents cooldown allowed st evs).processing = false) := by
  refine ⟨?_, ?_, fun evs h => runEvents_keeps_clear cooldown allowed evs st h⟩
  · intro hgate
    unfold on_created
    split
    · rfl
    · split
      · rfl
      · rw [if_pos]
        rcases hgate with hp | ht
        · exact Or.inr hp
        · exact Or.inl ht
  · unfold on_created
    split
    · exact Or.inl ⟨rfl, rfl⟩
    · split
      · exact Or.inl ⟨rfl, rfl⟩
      · split
        · exact Or.inl ⟨rfl, rfl⟩
        · exact Or.inr ⟨rfl, rfl⟩

/-- Witness for C7: a concrete event arriving while processing is set is
dropped with the state unchanged. -/
theorem C7_processing_mutual_exclusion_witness :
    on_created 2 [".png"] { processing := true, last_processed_time := 0 }
        { is_directory := false, src_path := "a.png", time := 10,
          controllerRaises := false } =
      ({ processing := true, last_processed_time := 0 }, [WatchAction.dropEvent]) :=
  (C7_processing_mutual_exclusion 2 [".png"]
      { processing := true, last_processed_time := 0 }
      { is_directory := false, src_path := "a.png", time := 10,
        controllerRaises := false }).1 (Or.inl rfl)

end AutoLeetcode
